import Mathlib

/-!
Verification development for the stock_pb_calc report pipeline.

This file shallowly embeds the web_rebuild backend pipeline
(`services/pipeline_service.py`, `services/pipeline_steps.py`,
`services/pipeline_repository.py`, `api/pipeline.py`, `rules/technical.py`,
`rules/fundamental.py`, `rules/registry.py`) and the board-name resolver
`_match_concept_name` of `script.py`, and proves properties of the embedding.

Modelling conventions:
* Python floats are modelled as exact rationals (`ℚ`); every constant and
  arithmetic operation used by the rules is exact, and all compared claims are
  order/equality facts that agree with the float computation.
* Python dicts with string keys holding numbers (`params`, `snapshot_data`)
  are modelled as `String → Option ℚ`; `d.get(k)` is application, and
  `d.get(k, v)` is `(f k).getD v`.
* Code that raises is modelled with `Except Unit`; a caught exception is the
  `.error` case.
* External I/O (akshare fetches inside rules, the LLM, market data, the
  article crawler) is modelled by oracle parameters: the embedding is
  universally quantified over every possible answer of the external world.
* Database tables are lists of rows; `INSERT` appends, `DELETE ... WHERE`
  filters, `lastrowid` is a running `nextId` counter.
-/

namespace StockPB

/-- A Python dict mapping metric/parameter names to numbers
(`snapshot_data`, `rule_value`). `none` is an absent key. -/
abbrev Params := String → Option ℚ

/-- The empty dict `{}`. -/
def noParams : Params := fun _ => none

/-- Numeric display formatting: Python's `f"{x:.2f}"` abstracted as plain
rational printing. Reason strings are presentational only; no claim depends
on the digits. -/
def fmt (q : ℚ) : String := toString q

/-- Source: `rules/base.py` `RuleResult` dataclass. `details` values are the numeric
metric echoes the rules store. -/
structure RuleResult where
  passed : Bool
  score : ℚ
  reason : String
  details : List (String × Option ℚ)
deriving DecidableEq, Repr

/-- The `stock_context` dict built by `_apply_rules_to_stock`. -/
structure StockContext where
  stockCode : String
  stockName : String
  snapshot : Params
  relatedTopicId : Option Nat

/-- Oracle for the akshare lookups the four fetch-style rules perform when
their metric is missing from the snapshot (`stock_individual_info_em`,
`stock_zh_a_spot_em`, `stock_financial_analysis_indicator`). `none` models a
failed / empty / `"-"` response (the `except` paths of the source). -/
structure ExternalFetch where
  marketCap : Option ℚ
  peRatio : Option ℚ
  pbRatio : Option ℚ
  roe : Option ℚ

/-- The all-`none` oracle: every external fetch fails. -/
def noFetch : ExternalFetch := ⟨none, none, none, none⟩

/-- Source: `rules/technical.py` `MarketCapRule.check`. Params default:
`min_market_cap = 50`, `max_market_cap = 500`. The snapshot value wins;
otherwise the akshare oracle is consulted; if both are absent the rule
passes with score `0.5`. -/
def marketCapCheck (params : Params) (fetch : ExternalFetch) (ctx : StockContext) : RuleResult :=
  let minCap := (params "min_market_cap").getD 50
  let maxCap := (params "max_market_cap").getD 500
  let mc := match ctx.snapshot "market_cap" with
    | some v => some v
    | none => fetch.marketCap
  match mc with
  | none =>
    { passed := true, score := 1/2, reason := "无法获取市值数据",
      details := [("market_cap", none)] }
  | some v =>
    let passed := decide (minCap ≤ v ∧ v ≤ maxCap)
    { passed := passed,
      score := if passed then 1 else 0,
      reason := "市值 " ++ fmt v ++ "亿" ++
        (if passed then "在[" ++ fmt minCap ++ ", " ++ fmt maxCap ++ "]范围内"
         else "不在[" ++ fmt minCap ++ ", " ++ fmt maxCap ++ "]范围内"),
      details := [("market_cap", some v)] }

/-- Source: `rules/technical.py` `VolumeRatioRule.check`. Params default:
`min_volume_ratio = 1.5`. A missing `volume_ratio` metric is read as `0`
(`snapshot_data.get("volume_ratio", 0)`). When the rule passes and the
configured minimum is `0`, Python's `volume_ratio / min_volume_ratio`
raises `ZeroDivisionError`, modelled as `.error`. -/
def volumeRatioCheck (params : Params) (ctx : StockContext) : Except Unit RuleResult :=
  let minVr := (params "min_volume_ratio").getD (3/2)
  let vr := (ctx.snapshot "volume_ratio").getD 0
  let passed := decide (minVr ≤ vr)
  if passed && decide (minVr = 0) then .error ()
  else .ok
    { passed := passed,
      score := if passed then min (vr / minVr) 1 else 0,
      reason := "量比 " ++ fmt vr ++
        (if passed then " >= " ++ fmt minVr else " < " ++ fmt minVr),
      details := [("volume_ratio", some vr)] }

/-- Source: `rules/technical.py` `PriceChangeRule.check`. Params default:
`min_change_pct = -10`, `max_change_pct = 10`. A missing `change_pct`
metric is read as `0`. -/
def priceChangeCheck (params : Params) (ctx : StockContext) : RuleResult :=
  let minPct := (params "min_change_pct").getD (-10)
  let maxPct := (params "max_change_pct").getD 10
  let cp := (ctx.snapshot "change_pct").getD 0
  let passed := decide (minPct ≤ cp ∧ cp ≤ maxPct)
  { passed := passed,
    score := if passed then 1 else 0,
    reason := "涨跌幅 " ++ fmt cp ++ "%" ++
      (if passed then "在[" ++ fmt minPct ++ "%, " ++ fmt maxPct ++ "%]范围内"
       else "不在[" ++ fmt minPct ++ "%, " ++ fmt maxPct ++ "%]范围内"),
    details := [("change_pct", some cp)] }

/-- Source: `rules/technical.py` `TurnoverRateRule.check`. Params default:
`min_turnover = 2`, `max_turnover = 20`. A missing `turnover_rate` metric
is read as `0`. -/
def turnoverRateCheck (params : Params) (ctx : StockContext) : RuleResult :=
  let minT := (params "min_turnover").getD 2
  let maxT := (params "max_turnover").getD 20
  let tr := (ctx.snapshot "turnover_rate").getD 0
  let passed := decide (minT ≤ tr ∧ tr ≤ maxT)
  { passed := passed,
    score := if passed then 1 else 0,
    reason := "换手率 " ++ fmt tr ++ "%" ++
      (if passed then "在[" ++ fmt minT ++ "%, " ++ fmt maxT ++ "%]范围内"
       else "不在[" ++ fmt minT ++ "%, " ++ fmt maxT ++ "%]范围内"),
    details := [("turnover_rate", some tr)] }

/-- Source: `rules/fundamental.py` `PERatioRule.check`. Params default:
`max_pe = 50`, `min_pe = 0`. Snapshot value first, then the akshare spot
table; if both absent the rule passes with score `0.5`. -/
def peRatioCheck (params : Params) (fetch : ExternalFetch) (ctx : StockContext) : RuleResult :=
  let maxPe := (params "max_pe").getD 50
  let minPe := (params "min_pe").getD 0
  let pe := match ctx.snapshot "pe_ratio" with
    | some v => some v
    | none => fetch.peRatio
  match pe with
  | none =>
    { passed := true, score := 1/2, reason := "无法获取市盈率数据",
      details := [("pe_ratio", none)] }
  | some v =>
    let passed := decide (minPe ≤ v ∧ v ≤ maxPe)
    { passed := passed,
      score := if passed then 1 else 0,
      reason := "市盈率 " ++ fmt v ++
        (if passed then "在[" ++ fmt minPe ++ ", " ++ fmt maxPe ++ "]范围内"
         else "不在[" ++ fmt minPe ++ ", " ++ fmt maxPe ++ "]范围内"),
      details := [("pe_ratio", some v)] }

/-- Source: `rules/fundamental.py` `PBRatioRule.check`. Params default:
`max_pb = 10`, `min_pb = 0`. -/
def pbRatioCheck (params : Params) (fetch : ExternalFetch) (ctx : StockContext) : RuleResult :=
  let maxPb := (params "max_pb").getD 10
  let minPb := (params "min_pb").getD 0
  let pb := match ctx.snapshot "pb_ratio" with
    | some v => some v
    | none => fetch.pbRatio
  match pb with
  | none =>
    { passed := true, score := 1/2, reason := "无法获取市净率数据",
      details := [("pb_ratio", none)] }
  | some v =>
    let passed := decide (minPb ≤ v ∧ v ≤ maxPb)
    { passed := passed,
      score := if passed then 1 else 0,
      reason := "市净率 " ++ fmt v ++
        (if passed then "在[" ++ fmt minPb ++ ", " ++ fmt maxPb ++ "]范围内"
         else "不在[" ++ fmt minPb ++ ", " ++ fmt maxPb ++ "]范围内"),
      details := [("pb_ratio", some v)] }

/-- Source: `rules/fundamental.py` `ROERule.check`. Params default: `min_roe = 0`. -/
def roeCheck (params : Params) (fetch : ExternalFetch) (ctx : StockContext) : RuleResult :=
  let minRoe := (params "min_roe").getD 0
  let roe := match ctx.snapshot "roe" with
    | some v => some v
    | none => fetch.roe
  match roe with
  | none =>
    { passed := true, score := 1/2, reason := "无法获取ROE数据",
      details := [("roe", none)] }
  | some v =>
    let passed := decide (minRoe ≤ v)
    { passed := passed,
      score := if passed then 1 else 0,
      reason := "ROE " ++ fmt v ++ "%" ++
        (if passed then " >= " ++ fmt minRoe ++ "%" else " < " ++ fmt minRoe ++ "%"),
      details := [("roe", some v)] }

/-- The seven rule classes registered in `rules/registry.py` (technical
module first, then fundamental, in definition order). -/
inductive RuleKind where
  | marketCap
  | volumeRatio
  | priceChange
  | turnoverRate
  | peRatio
  | pbRatio
  | roe
deriving DecidableEq, Repr

/-- Source: `rules/registry.py` `RULE_REGISTRY` lookup, `get_rule_class`:
`none` models the `KeyError` for an unregistered key. -/
def ruleClassOf (key : String) : Option RuleKind :=
  if key = "market_cap" then some .marketCap
  else if key = "volume_ratio" then some .volumeRatio
  else if key = "price_change" then some .priceChange
  else if key = "turnover_rate" then some .turnoverRate
  else if key = "pe_ratio" then some .peRatio
  else if key = "pb_ratio" then some .pbRatio
  else if key = "roe" then some .roe
  else none

/-- Dispatch of `rule_instance.check(stock_context)` by registered class. -/
def checkByKind (k : RuleKind) (params : Params) (fetch : ExternalFetch)
    (ctx : StockContext) : Except Unit RuleResult :=
  match k with
  | .marketCap => .ok (marketCapCheck params fetch ctx)
  | .volumeRatio => volumeRatioCheck params ctx
  | .priceChange => .ok (priceChangeCheck params ctx)
  | .turnoverRate => .ok (turnoverRateCheck params ctx)
  | .peRatio => .ok (peRatioCheck params fetch ctx)
  | .pbRatio => .ok (pbRatioCheck params fetch ctx)
  | .roe => .ok (roeCheck params fetch ctx)

/-- One row of the enabled-rules configuration
(`strategy_config`: `rule_key`, `rule_value`). -/
structure RuleConfig where
  ruleKey : String
  ruleValue : Params

/-- One iteration of the rule loop of `_apply_rules_to_stock`:
`get_rule_class(rule_key)` (a `KeyError` for unknown keys) followed by
instantiation and `check`. `.error` is the caught per-rule exception. -/
def evalRule (fetch : ExternalFetch) (ctx : StockContext) (cfg : RuleConfig) :
    Except Unit RuleResult :=
  match ruleClassOf cfg.ruleKey with
  | none => .error ()
  | some k => checkByKind k cfg.ruleValue fetch ctx

/-- Source: `pipeline_steps.py` `TECH_RULES`. -/
def TECH_RULES : List String := ["volume_ratio", "price_change", "turnover_rate"]

/-- Source: `pipeline_steps.py` `FUND_RULES`. -/
def FUND_RULES : List String := ["pe_ratio", "pb_ratio", "roe"]

/-- One element of the persisted `rule_results` list. -/
structure RuleEntry where
  ruleKey : String
  passed : Bool
  score : ℚ
  reason : String
  details : List (String × Option ℚ)
deriving DecidableEq, Repr

/-- Accumulator of the rule loop of `_apply_rules_to_stock`. -/
structure LoopAcc where
  ruleResults : List RuleEntry
  totalScore : ℚ
  techScore : ℚ
  fundScore : ℚ
  allPassed : Bool
deriving Repr

/-- The rule loop of `_apply_rules_to_stock` (`pipeline_steps.py` 194-224,
identically inlined in `pipeline_service.step4_apply_rules` 371-401): each
configured rule is evaluated; an exception marks `all_passed = False` and
contributes nothing; a result is appended, bucketed (`if key in TECH_RULES
... elif key in FUND_RULES`), and summed into `total_score`. -/
def applyLoop (fetch : ExternalFetch) (ctx : StockContext) :
    List RuleConfig → LoopAcc
  | [] => ⟨[], 0, 0, 0, true⟩
  | cfg :: rest =>
    let acc := applyLoop fetch ctx rest
    match evalRule fetch ctx cfg with
    | .error _ => { acc with allPassed := false }
    | .ok r =>
      { ruleResults := ⟨cfg.ruleKey, r.passed, r.score, r.reason, r.details⟩ :: acc.ruleResults,
        totalScore := r.score + acc.totalScore,
        techScore :=
          if TECH_RULES.contains cfg.ruleKey then r.score + acc.techScore
          else acc.techScore,
        fundScore :=
          if TECH_RULES.contains cfg.ruleKey then acc.fundScore
          else if FUND_RULES.contains cfg.ruleKey then r.score + acc.fundScore
          else acc.fundScore,
        allPassed := r.passed && acc.allPassed }

/-- One row of `stock_pool_1`. -/
structure Pool1Row where
  id : Nat
  reportId : Nat
  stockCode : String
  stockName : String
  relatedTopicId : Option Nat
  snapshotData : Params
  matchReason : String

/-- The `stock_context` dict `_apply_rules_to_stock` builds from a pool-1 row. -/
def stockContextOf (s : Pool1Row) : StockContext :=
  ⟨s.stockCode, s.stockName, s.snapshotData, s.relatedTopicId⟩

/-- Return value of `_apply_rules_to_stock`. -/
structure ApplyOutcome where
  isSelected : Bool
  techScore : ℚ
  fundScore : ℚ
  totalScore : ℚ
  ruleResults : List RuleEntry

/-- Source: `pipeline_steps.py` `_apply_rules_to_stock` (163-237): run the rule loop,
normalize the per-bucket scores by the count of configured rules of that
bucket, and gate `is_selected = all_passed and total_score > 0`. -/
def applyRulesToStock (fetch : ExternalFetch) (stock : Pool1Row)
    (rulesConfig : List RuleConfig) : ApplyOutcome :=
  let ctx := stockContextOf stock
  let acc := applyLoop fetch ctx rulesConfig
  let numTech := (rulesConfig.filter (fun r => TECH_RULES.contains r.ruleKey)).length
  let numFund := (rulesConfig.filter (fun r => FUND_RULES.contains r.ruleKey)).length
  let techScore := if numTech > 0 then acc.techScore / (numTech : ℚ) else acc.techScore
  let fundScore := if numFund > 0 then acc.fundScore / (numFund : ℚ) else acc.fundScore
  ⟨acc.allPassed && decide (acc.totalScore > 0), techScore, fundScore,
    acc.totalScore, acc.ruleResults⟩

/-- The score a configured rule contributes (`0` when its evaluation raised). -/
def ruleScoreOf (fetch : ExternalFetch) (ctx : StockContext) (cfg : RuleConfig) : ℚ :=
  match evalRule fetch ctx cfg with
  | .ok r => r.score
  | .error _ => 0

/-- Whether a configured rule's check ran and reported `passed = True`. -/
def rulePassedOk (fetch : ExternalFetch) (ctx : StockContext) (cfg : RuleConfig) : Bool :=
  match evalRule fetch ctx cfg with
  | .ok r => r.passed
  | .error _ => false

/-- The `rule_results` entry a configured rule produces (`none` when its
evaluation raised). -/
def ruleEntryOf (fetch : ExternalFetch) (ctx : StockContext) (cfg : RuleConfig) :
    Option RuleEntry :=
  match evalRule fetch ctx cfg with
  | .ok r => some ⟨cfg.ruleKey, r.passed, r.score, r.reason, r.details⟩
  | .error _ => none

/-! ## Board resolver (`script.py` `_match_concept_name`, 1060-1149) -/

/-- Python `list-prefix` test on character lists (helper for substring
containment). -/
def charsHavePre : List Char → List Char → Bool
  | [], _ => true
  | _ :: _, [] => false
  | a :: as, b :: bs => a == b && charsHavePre as bs

/-- Substring occurrence on character lists. -/
def charsHaveSub (needle : List Char) : List Char → Bool
  | [] => needle.isEmpty
  | h :: t => charsHavePre needle (h :: t) || charsHaveSub needle t

/-- Python's `needle in hay` substring test. -/
def strSubOf (needle hay : String) : Bool :=
  charsHaveSub needle.data hay.data

/-- Python `str.strip()`: drop whitespace from both ends. Implemented by
structural recursion on the character list so that concrete queries evaluate
inside proofs. -/
def pyStrip (s : String) : String :=
  ⟨((s.data.dropWhile Char.isWhitespace).reverse.dropWhile Char.isWhitespace).reverse⟩

/-- Python sort key `(len(n), n)` as a Boolean total preorder: shorter first,
lexicographic (code-point) order on ties. -/
def ascLeB (a b : String) : Bool :=
  decide (a.length < b.length ∨ (a.length = b.length ∧ a ≤ b))

/-- Python sort key `(-len(n), n)`: longer first, lexicographic on ties. -/
def descLeB (a b : String) : Bool :=
  decide (b.length < a.length ∨ (a.length = b.length ∧ a ≤ b))

/-- Ordered insertion for `sortLe`. -/
def insertLe (le : String → String → Bool) (x : String) : List String → List String
  | [] => [x]
  | y :: ys => if le x y then x :: y :: ys else y :: insertLe le x ys

/-- Insertion sort modelling Python's `list.sort(key=...)`; only the head of
the sorted list is consumed (`contains[0]`), and tied keys are equal strings,
so stability is immaterial. -/
def sortLe (le : String → String → Bool) (l : List String) : List String :=
  l.foldr (insertLe le) []

/-- Source: `script.py` `COMMON_SECTOR_ALIASES`, verbatim. -/
def COMMON_SECTOR_ALIASES : List (String × List String) :=
  [("人工智能", ["AI应用", "AI算力", "AI服务器", "AI芯片", "AI语料",
                 "AI手机", "AI PC", "ChatGPT概念", "AIGC概念"]),
   ("黄金", ["黄金概念", "黄金"]),
   ("光伏", ["光伏概念", "光伏设备", "TOPCon电池", "HJT电池", "HIT电池",
             "钙钛矿电池", "BC电池"]),
   ("芯片", ["芯片", "国产芯片", "先进封装", "存储芯片", "MCU芯片", "光刻机"]),
   ("军工", ["军工", "军民融合", "国防军工"]),
   ("机器人", ["机器人概念", "人形机器人", "工业母机"]),
   ("算力", ["AI算力", "算力租赁", "数据中心"]),
   ("新能源车", ["新能源汽车", "新能源车", "锂电池概念", "固态电池"])]

/-- Second alias loop: for each preferred keyword in order, collect catalog
names containing it (`if name and name in n`), and return the first nonempty
batch's `(len, lex)`-least element. -/
def aliasContainsFirst (conceptNames : List String) : List String → Option String
  | [] => none
  | name :: rest =>
    let contns := conceptNames.filter (fun n => (!name.isEmpty) && strSubOf name n)
    if contns.isEmpty then aliasContainsFirst conceptNames rest
    else (sortLe ascLeB contns).head?

/-- The curated-alias stage of `_match_concept_name`: exact catalog membership
of each preferred name in alias-list order, then the contains heuristic over
the preferred keywords. `none` falls through to the generic heuristics. -/
def aliasResolve (s : String) (conceptNames : List String) : Option String :=
  match COMMON_SECTOR_ALIASES.lookup s with
  | none => none
  | some preferred =>
    match preferred.find? (fun name => conceptNames.contains name) with
    | some name => some name
    | none => aliasContainsFirst conceptNames preferred

/-- The two generic fallback heuristics of `_match_concept_name`: catalog
names containing the query (shortest, then lexicographic), else catalog
names contained in the query (longest, then lexicographic), else `none`. -/
def genericHeuristic (s : String) (conceptNames : List String) : Option String :=
  let contns := conceptNames.filter (fun n => strSubOf s n)
  if !contns.isEmpty then (sortLe ascLeB contns).head?
  else
    let contained := conceptNames.filter (fun n => strSubOf n s)
    if !contained.isEmpty then (sortLe descLeB contained).head?
    else none

/-- Source: `script.py` `_match_concept_name(sector, concept_names)`: trim, exact
catalog match, curated aliases, then the generic substring heuristics. -/
def matchConceptName (sector : String) (conceptNames : List String) : Option String :=
  let s := pyStrip sector
  if s = "" then none
  else if conceptNames.contains s then some s
  else
    match aliasResolve s conceptNames with
    | some name => some name
    | none => genericHeuristic s conceptNames

/-! ## Persisted state and the pipeline orchestrator
(`pipeline_service.py`, `pipeline_repository.py`, `api/pipeline.py`) -/

/-- One row of `reports`. -/
structure ReportRow where
  id : Nat
  date : String
  status : String
deriving DecidableEq, Repr

/-- One row of `raw_articles`. -/
structure ArticleRow where
  id : Nat
  reportId : Nat
  title : String
  content : String
  sourceAccount : String
  publishTime : String
  url : String
deriving DecidableEq, Repr

/-- One row of `hot_topics`. -/
structure TopicRow where
  id : Nat
  reportId : Nat
  topicName : String
  relatedBoards : List String
  logicSummary : String
  sourceArticleIds : List Nat
deriving DecidableEq, Repr

/-- One row of `stock_pool_2`. -/
structure Pool2Row where
  id : Nat
  reportId : Nat
  pool1Id : Nat
  stockCode : String
  stockName : String
  techScore : ℚ
  fundScore : ℚ
  totalScore : ℚ
  ruleResults : List RuleEntry
  isSelected : Bool
deriving DecidableEq, Repr

/-- The database state the pipeline operates on. `strategyConfig` is the
result of the enabled-rules `SELECT` (ordered by `sort_order`);
`targetAccounts` are the active crawl accounts; `nextId` models
auto-increment `lastrowid`. -/
structure DB where
  reports : List ReportRow
  rawArticles : List ArticleRow
  hotTopics : List TopicRow
  stockPool1 : List Pool1Row
  stockPool2 : List Pool2Row
  strategyConfig : List RuleConfig
  targetAccounts : List String
  nextId : Nat

/-- Source: `SELECT ... FROM raw_articles WHERE report_id = %s`. -/
def articlesOf (db : DB) (rid : Nat) : List ArticleRow :=
  db.rawArticles.filter (fun a => a.reportId == rid)

/-- Source: `SELECT ... FROM hot_topics WHERE report_id = %s`. -/
def topicsOf (db : DB) (rid : Nat) : List TopicRow :=
  db.hotTopics.filter (fun t => t.reportId == rid)

/-- Source: `SELECT ... FROM stock_pool_1 WHERE report_id = %s`. -/
def pool1Of (db : DB) (rid : Nat) : List Pool1Row :=
  db.stockPool1.filter (fun s => s.reportId == rid)

/-- Source: `SELECT ... FROM stock_pool_2 WHERE report_id = %s`. -/
def pool2Of (db : DB) (rid : Nat) : List Pool2Row :=
  db.stockPool2.filter (fun s => s.reportId == rid)

/-- The stored status of a report. -/
def statusOf (db : DB) (rid : Nat) : Option String :=
  (db.reports.find? (fun r => r.id == rid)).map (fun r => r.status)

/-- Source: `update_report_status`. -/
def updateStatus (db : DB) (rid : Nat) (status : String) : DB :=
  { db with reports := db.reports.map (fun r => if r.id == rid then { r with status := status } else r) }

/-- Source: `create_report`: inserts a `pending` report row and returns its id. -/
def createReport (db : DB) (date : String) : DB × Nat :=
  ({ db with reports := db.reports ++ [⟨db.nextId, date, "pending"⟩],
             nextId := db.nextId + 1 }, db.nextId)

/-- The report id `run_full_pipeline` will operate on for a date: the first
existing report row with that date, else the id the fresh insert receives. -/
def resolveReportId (db : DB) (date : String) : Nat :=
  match db.reports.find? (fun r => r.date == date) with
  | some r => r.id
  | none => db.nextId

/-- Source: `pipeline_repository.py` `clear_step_data` (77-109): delete `stock_pool_2`
when `step ≤ 4`, then `stock_pool_1` when `step ≤ 3`, then `hot_topics` when
`step ≤ 2`, returning per-table deleted counts in that order. -/
def clearStepData (db : DB) (rid step : Nat) : DB × List (String × Nat) :=
  let (db4, c4) :=
    if step ≤ 4 then
      ({ db with stockPool2 := db.stockPool2.filter (fun r => !(r.reportId == rid)) },
       [("stock_pool_2", (db.stockPool2.filter (fun r => r.reportId == rid)).length)])
    else (db, [])
  let (db3, c3) :=
    if step ≤ 3 then
      ({ db4 with stockPool1 := db4.stockPool1.filter (fun r => !(r.reportId == rid)) },
       [("stock_pool_1", (db4.stockPool1.filter (fun r => r.reportId == rid)).length)])
    else (db4, [])
  let (db2, c2) :=
    if step ≤ 2 then
      ({ db3 with hotTopics := db3.hotTopics.filter (fun r => !(r.reportId == rid)) },
       [("hot_topics", (db3.hotTopics.filter (fun r => r.reportId == rid)).length)])
    else (db3, [])
  (db2, c4 ++ c3 ++ c2)

/-- The attributes the module `services.pipeline_service` actually defines or
imports (its `def`s, class and imported names). Python resolves
`pipeline_service.clear_step_data` by exactly this lookup;
`clear_step_data` is defined in `services.pipeline_repository`, not here. -/
def pipelineServiceAttrs : List String :=
  ["logging", "datetime", "Connection", "llm_service", "stock_service",
   "crawler", "get_rule_class", "logger", "PipelineError",
   "get_report_by_date", "create_report", "update_report_status",
   "get_report_articles", "get_report_topics", "get_report_pool1",
   "get_report_pool2", "step1_add_articles", "step2_extract_topics",
   "step3_get_board_stocks", "step4_apply_rules", "run_full_pipeline",
   "get_pipeline_nodes"]

/-- Source: `api/pipeline.py` `rerun_step` (145-184) up to its clear phase: validate
the step number, check the report exists, then evaluate
`pipeline_service.clear_step_data(conn, report_id, step_number)`. The
attribute lookup on `services.pipeline_service` is modelled explicitly; a
missing attribute is the `AttributeError` the endpoint surfaces as HTTP 500
(no row was deleted). -/
def rerunStep (db : DB) (rid step : Nat) : Except String (DB × List (String × Nat)) :=
  if step < 2 || step > 4 then .error "Step number must be 2, 3, or 4"
  else if !(db.reports.any (fun r => r.id == rid)) then .error "Report not found"
  else if pipelineServiceAttrs.contains "clear_step_data" then
    .ok (clearStepData db rid step)
  else
    .error "AttributeError: module services.pipeline_service has no attribute clear_step_data"

/-- An article produced by the crawl-and-sync block of `run_full_pipeline`
(the `wx_article_detail` rows of the report date). The source's column
scrambling in the sync `INSERT` is not modelled — no claim reads article
fields. -/
structure ArticleData where
  title : String
  content : String
  sourceAccount : String
  publishTime : String
  url : String

/-- A topic as returned by `llm_service.extract_topics_from_articles`. -/
structure TopicData where
  topicName : String
  relatedBoards : List String
  logicSummary : String
deriving DecidableEq, Repr

/-- A constituent stock as returned by `stock_service.get_stocks_by_board`. -/
structure StockData where
  code : String
  name : String

/-- The external world: LLM, market data, crawler, and the per-stock akshare
fetches inside rules. `.error` models a raised exception. -/
structure Oracles where
  llmTopics : List ArticleRow → Except Unit (List TopicData)
  boardStocks : String → Except Unit (List StockData)
  snap : String → Except Unit Params
  crawl : String → List ArticleData
  fetch : String → ExternalFetch

/-- Source: `INSERT INTO raw_articles ...` for one crawled article. -/
def insertArticleRow (rid : Nat) (db : DB) (a : ArticleData) : DB :=
  { db with
    rawArticles := db.rawArticles ++
      [⟨db.nextId, rid, a.title, a.content, a.sourceAccount, a.publishTime, a.url⟩],
    nextId := db.nextId + 1 }

/-- Source: `INSERT INTO stock_pool_2 ...` for one scored stock. -/
def insertPool2Row (rid : Nat) (s : Pool1Row) (o : ApplyOutcome) (db : DB) : DB :=
  { db with
    stockPool2 := db.stockPool2 ++
      [⟨db.nextId, rid, s.id, s.stockCode, s.stockName, o.techScore, o.fundScore,
        o.totalScore, o.ruleResults, o.isSelected⟩],
    nextId := db.nextId + 1 }

/-- Source: `pipeline_service.py` `step2_extract_topics` (245-281): no articles means
an early `[]`; otherwise the batched LLM call (whose exception propagates).
The topic loop then passes the raw `articles` list of dicts as the
`source_article_ids` parameter of the `hot_topics`-table `INSERT` (line 276,
"Store all article IDs for now") — the driver's parameter escaping
(`pymysql` `escape_dict`) deterministically raises `TypeError` on a dict, so
with any extracted topic the first `cur.execute` raises during client-side
escaping, before a row is written, and the exception propagates (contrast
`pipeline_repository.add_topic`, which `json.dumps`s these parameters). -/
def step2ExtractTopics (O : Oracles) (db : DB) (rid : Nat) :
    DB × Except Unit (List TopicData) :=
  let articles := articlesOf db rid
  if articles.isEmpty then (db, .ok [])
  else
    match O.llmTopics articles with
    | .error e => (db, .error e)
    | .ok [] => (db, .ok [])
    | .ok (_ :: _) => (db, .error ())

/-- Inner stock loop of `step3_get_board_stocks`: snapshot each constituent,
then `INSERT` it into pool 1 — but the `INSERT` (pipeline_service.py:311-323)
passes the `snapshot` dict raw as its `snapshot_data` parameter, and
`stock_service.get_stock_snapshot` always returns a dict (`{}` on missing
data), so the driver's escaping (`pymysql` `escape_dict`) raises `TypeError`
on the first stock. Either exception (snapshot fetch or insert) is caught by
the per-board handler, aborting this board's loop: nothing is ever inserted
and the count never moves. -/
def step3Stocks (O : Oracles) (rid tid : Nat) (board : String) :
    List StockData → DB → Nat → DB × Nat
  | [], db, cnt => (db, cnt)
  | st :: _rest, db, cnt =>
    match O.snap st.code with
    | .error _ => (db, cnt)
    | .ok _snap => (db, cnt)

/-- Per-board body of `step3_get_board_stocks`: a failing constituents fetch
is caught and skipped. -/
def step3Boards (O : Oracles) (rid tid : Nat) :
    List String → DB → Nat → DB × Nat
  | [], db, cnt => (db, cnt)
  | b :: rest, db, cnt =>
    let next :=
      match O.boardStocks b with
      | .error _ => (db, cnt)
      | .ok stocks => step3Stocks O rid tid b stocks db cnt
    step3Boards O rid tid rest next.1 next.2

/-- Topic loop of `step3_get_board_stocks`. -/
def step3Topics (O : Oracles) (rid : Nat) :
    List TopicRow → DB → Nat → DB × Nat
  | [], db, cnt => (db, cnt)
  | t :: rest, db, cnt =>
    let next := step3Boards O rid t.id t.relatedBoards db cnt
    step3Topics O rid rest next.1 next.2

/-- Source: `pipeline_service.py` `step3_get_board_stocks` (284-329). -/
def step3GetBoardStocks (O : Oracles) (db : DB) (rid : Nat) : DB × Nat :=
  step3Topics O rid (topicsOf db rid) db 0

/-- Stock loop of `step4_apply_rules`: score every pool-1 row, insert its
pool-2 row, and count the selected ones. -/
def step4Stocks (O : Oracles) (rid : Nat) (cfgs : List RuleConfig) :
    List Pool1Row → DB → Nat → DB × Nat
  | [], db, cnt => (db, cnt)
  | s :: rest, db, cnt =>
    let o := applyRulesToStock (O.fetch s.stockCode) s cfgs
    step4Stocks O rid cfgs rest (insertPool2Row rid s o db)
      (if o.isSelected then cnt + 1 else cnt)

/-- Source: `pipeline_service.py` `step4_apply_rules` (332-434) /
`pipeline_steps.py` `step4_apply_rules` (121-160): an empty pool 1 returns
`0`; otherwise every pool-1 row of the report gets exactly one pool-2 row. -/
def step4ApplyRules (O : Oracles) (db : DB) (rid : Nat)
    (cfgs : List RuleConfig) : DB × Nat :=
  let pool1 := pool1Of db rid
  if pool1.isEmpty then (db, 0)
  else step4Stocks O rid cfgs pool1 db 0

/-- The result dict of `run_full_pipeline` (the fields claims read). -/
structure PipelineResult where
  reportId : Nat
  status : String
  errorMsg : Option String
  selectedCount : Option Nat
deriving DecidableEq, Repr

/-- Stages 2-4 of `run_full_pipeline` with their zero-output gates, starting
from the state after article sourcing. -/
def runStages2to4 (O : Oracles) (db2 : DB) (rid : Nat) : DB × PipelineResult :=
  let articles := articlesOf db2 rid
  if articles.isEmpty then
    (updateStatus db2 rid "error", ⟨rid, "error", some "No articles found", none⟩)
  else
    match step2ExtractTopics O db2 rid with
    | (db3, .error _) =>
      (updateStatus db3 rid "error", ⟨rid, "error", some "exception", none⟩)
    | (db3, .ok topics) =>
      if topics.isEmpty then
        (updateStatus db3 rid "error", ⟨rid, "error", some "No topics extracted", none⟩)
      else
        let s3 := step3GetBoardStocks O db3 rid
        if s3.2 = 0 then
          (updateStatus s3.1 rid "error", ⟨rid, "error", some "No stocks found", none⟩)
        else
          let s4 := step4ApplyRules O s3.1 rid s3.1.strategyConfig
          (updateStatus s4.1 rid "completed", ⟨rid, "completed", none, some s4.2⟩)

/-- Stage 1 of `run_full_pipeline`: mark the report `processing` and, when it
has no articles and active crawl accounts exist, insert the crawled-and-synced
articles of the date (the oracle's answer). -/
def sourceArticles (O : Oracles) (db0 : DB) (rid : Nat) (date : String) : DB :=
  let db1 := updateStatus db0 rid "processing"
  if (articlesOf db1 rid).isEmpty then
    if db1.targetAccounts.isEmpty then db1
    else (O.crawl date).foldl (insertArticleRow rid) db1
  else db1

/-- Body of `run_full_pipeline` once the report row is resolved. -/
def runPipelineCore (O : Oracles) (db0 : DB) (rid : Nat) (date : String) :
    DB × PipelineResult :=
  runStages2to4 O (sourceArticles O db0 rid date) rid

/-- Source: `pipeline_service.py` `run_full_pipeline` (437-636): get or create the
report for the date, then run the staged body. -/
def runFullPipeline (O : Oracles) (db : DB) (date : String) : DB × PipelineResult :=
  match db.reports.find? (fun r => r.date == date) with
  | some r => runPipelineCore O db r.id date
  | none =>
    let c := createReport db date
    runPipelineCore O c.1 c.2 date

/-! ## Auxiliary values and spec-side predicates used by the theorems -/

/-- A stock context whose snapshot overrides one metric with a fixed value,
leaving every other metric as in `ctx`. -/
def ctxWithMetric (ctx : StockContext) (metric : String) (v : ℚ) : StockContext :=
  { ctx with snapshot := fun k => if k = metric then some v else ctx.snapshot k }

/-- A concrete stock context with an entirely empty snapshot. -/
def noDataCtx : StockContext := ⟨"600000", "示例股票", noParams, none⟩

/-- A concrete pool-1 row with an empty snapshot. -/
def sampleStock : Pool1Row := ⟨1, 1, "600000", "示例股票", none, noParams, ""⟩

/-- The Python sort key `(len(n), n)` as a proposition: shorter first,
code-point lexicographic on equal lengths. -/
def ascKeyLe (a b : String) : Prop :=
  a.length < b.length ∨ (a.length = b.length ∧ a ≤ b)

/-- The Python sort key `(-len(n), n)` as a proposition: longer first,
code-point lexicographic on equal lengths. -/
def descKeyLe (a b : String) : Prop :=
  b.length < a.length ∨ (a.length = b.length ∧ a ≤ b)

/-- A database holding one report (id 1) with one article, one topic, one
pool-1 row and one pool-2 row. -/
def populatedReportDb : DB :=
  { reports := [⟨1, "2024-01-01", "completed"⟩],
    rawArticles := [⟨10, 1, "标题", "内容", "账号", "2024-01-01", "http://a"⟩],
    hotTopics := [⟨11, 1, "主题", ["板块"], "说明", [10]⟩],
    stockPool1 := [⟨12, 1, "600000", "示例股票", some 11, noParams, "来自板块: 板块"⟩],
    stockPool2 := [⟨13, 1, 12, "600000", "示例股票", 0, 0, 0, [], false⟩],
    strategyConfig := [],
    targetAccounts := [],
    nextId := 14 }

/-- A database holding one pending report (id 1) for 2024-01-01 and nothing
else: no articles, no active crawl accounts. -/
def pendingReportDb : DB :=
  { reports := [⟨1, "2024-01-01", "pending"⟩],
    rawArticles := [], hotTopics := [], stockPool1 := [], stockPool2 := [],
    strategyConfig := [], targetAccounts := [], nextId := 2 }

/-- An external world where every fetch fails or returns nothing. -/
def emptyWorld : Oracles :=
  { llmTopics := fun _ => .ok [],
    boardStocks := fun _ => .error (),
    snap := fun _ => .error (),
    crawl := fun _ => [],
    fetch := fun _ => noFetch }

/-- A database holding one pending report (id 1) for 2024-01-01 with one
article already attached. -/
def articleReportDb : DB :=
  { reports := [⟨1, "2024-01-01", "pending"⟩],
    rawArticles := [⟨2, 1, "标题", "内容", "账号", "2024-01-01", "http://a"⟩],
    hotTopics := [], stockPool1 := [], stockPool2 := [],
    strategyConfig := [], targetAccounts := [], nextId := 3 }

/-- A benign external world whose LLM extracts one topic and whose market
data is all present: the inputs under which the claim expects the run to
reach `completed`. -/
def oneTopicWorld : Oracles :=
  { llmTopics := fun _ => .ok [⟨"人工智能", ["AI算力"], "热点"⟩],
    boardStocks := fun _ => .ok [⟨"600000", "示例股票"⟩],
    snap := fun _ => .ok noParams,
    crawl := fun _ => [],
    fetch := fun _ => noFetch }

/-! ## Rule-engine lemmas -/

theorem tech_not_fund {k : String} (h : k ∈ TECH_RULES) : k ∉ FUND_RULES := by
  fin_cases h <;> decide

theorem applyLoop_eq (fetch : ExternalFetch) (ctx : StockContext)
    (cfgs : List RuleConfig) :
    applyLoop fetch ctx cfgs =
      ⟨cfgs.filterMap (ruleEntryOf fetch ctx),
       (cfgs.map (ruleScoreOf fetch ctx)).sum,
       ((cfgs.filter (fun c => TECH_RULES.contains c.ruleKey)).map
          (ruleScoreOf fetch ctx)).sum,
       ((cfgs.filter (fun c => FUND_RULES.contains c.ruleKey)).map
          (ruleScoreOf fetch ctx)).sum,
       cfgs.all (rulePassedOk fetch ctx)⟩ := by
  induction cfgs with
  | nil => rfl
  | cons c rest ih =>
    simp only [applyLoop, ih]
    by_cases hT : c.ruleKey ∈ TECH_RULES
    · have hF : c.ruleKey ∉ FUND_RULES := tech_not_fund hT
      cases hev : evalRule fetch ctx c <;>
        simp [ruleEntryOf, ruleScoreOf, rulePassedOk, hev, hT, hF, List.filter_cons]
    · by_cases hF : c.ruleKey ∈ FUND_RULES <;>
        cases hev : evalRule fetch ctx c <;>
          simp [ruleEntryOf, ruleScoreOf, rulePassedOk, hev, hT, hF, List.filter_cons]

/-- C8: `total_score` is the sum of all configured rules' scores (a raising
rule contributing `0`), and `tech_score` / `fund_score` are the bucket sums
divided by the count of configured rules whose key lies in the fixed
`TECH_RULES` / `FUND_RULES` sets, with `0` for an empty bucket. -/
theorem score_aggregation (fetch : ExternalFetch) (stock : Pool1Row)
    (cfgs : List RuleConfig) :
    (applyRulesToStock fetch stock cfgs).totalScore =
      (cfgs.map (ruleScoreOf fetch (stockContextOf stock))).sum ∧
    (applyRulesToStock fetch stock cfgs).techScore =
      (if 0 < (cfgs.filter (fun c => TECH_RULES.contains c.ruleKey)).length then
        ((cfgs.filter (fun c => TECH_RULES.contains c.ruleKey)).map
            (ruleScoreOf fetch (stockContextOf stock))).sum /
          ((cfgs.filter (fun c => TECH_RULES.contains c.ruleKey)).length : ℚ)
       else 0) ∧
    (applyRulesToStock fetch stock cfgs).fundScore =
      (if 0 < (cfgs.filter (fun c => FUND_RULES.contains c.ruleKey)).length then
        ((cfgs.filter (fun c => FUND_RULES.contains c.ruleKey)).map
            (ruleScoreOf fetch (stockContextOf stock))).sum /
          ((cfgs.filter (fun c => FUND_RULES.contains c.ruleKey)).length : ℚ)
       else 0) := by
  have h := applyLoop_eq fetch (stockContextOf stock) cfgs
  simp only [applyRulesToStock, h]
  refine ⟨trivial, ?_, ?_⟩ <;>
  · split_ifs with h1
    · rfl
    · have hnil := List.length_eq_zero.mp (Nat.eq_zero_of_not_pos h1)
      rw [hnil]
      rfl

theorem checkByKind_noParams_bounds (k : RuleKind) (fetch : ExternalFetch)
    (ctx : StockContext) :
    ∃ r, checkByKind k noParams fetch ctx = .ok r ∧
      0 ≤ r.score ∧ r.score ≤ 1 ∧ (r.passed = false → r.score = 0) := by
  cases k
  case marketCap =>
    refine ⟨marketCapCheck noParams fetch ctx, rfl, ?_⟩
    rcases h1 : ctx.snapshot "market_cap" with _ | v
    · rcases h2 : fetch.marketCap with _ | v
      · simp [marketCapCheck, h1, h2]
        norm_num
      · simp only [marketCapCheck, h1, h2]
        split_ifs with hc <;> simp [hc]
    · simp only [marketCapCheck, h1]
      split_ifs with hc <;> simp [hc]
  case volumeRatio =>
    have hd : decide ((3 : ℚ)/2 = 0) = false := decide_eq_false (by norm_num)
    obtain ⟨r, hr⟩ : ∃ r, checkByKind RuleKind.volumeRatio noParams fetch ctx = .ok r := by
      simp only [checkByKind, volumeRatioCheck, noParams, Option.getD_none, hd,
        Bool.and_false]
      exact ⟨_, rfl⟩
    have hr2 := hr
    simp only [checkByKind, volumeRatioCheck, noParams, Option.getD_none, hd,
      Bool.and_false, Bool.false_eq_true, if_false, Except.ok.injEq] at hr2
    refine ⟨r, hr, ?_, ?_, ?_⟩ <;> rw [← hr2]
    · split_ifs with hpc
      · have hp := of_decide_eq_true hpc
        exact le_min (div_nonneg (le_trans (by norm_num) hp) (by norm_num)) (by norm_num)
      · exact le_refl 0
    · split_ifs with hpc
      · exact min_le_right _ _
      · norm_num
    · intro hpf
      split_ifs with hpc
      · simp [hpc] at hpf
      · rfl
  case priceChange =>
    refine ⟨priceChangeCheck noParams ctx, rfl, ?_⟩
    simp only [priceChangeCheck]
    split_ifs with hc <;> simp [hc]
  case turnoverRate =>
    refine ⟨turnoverRateCheck noParams ctx, rfl, ?_⟩
    simp only [turnoverRateCheck]
    split_ifs with hc <;> simp [hc]
  case peRatio =>
    refine ⟨peRatioCheck noParams fetch ctx, rfl, ?_⟩
    rcases h1 : ctx.snapshot "pe_ratio" with _ | v
    · rcases h2 : fetch.peRatio with _ | v
      · simp [peRatioCheck, h1, h2]
        norm_num
      · simp only [peRatioCheck, h1, h2]
        split_ifs with hc <;> simp [hc]
    · simp only [peRatioCheck, h1]
      split_ifs with hc <;> simp [hc]
  case pbRatio =>
    refine ⟨pbRatioCheck noParams fetch ctx, rfl, ?_⟩
    rcases h1 : ctx.snapshot "pb_ratio" with _ | v
    · rcases h2 : fetch.pbRatio with _ | v
      · simp [pbRatioCheck, h1, h2]
        norm_num
      · simp only [pbRatioCheck, h1, h2]
        split_ifs with hc <;> simp [hc]
    · simp only [pbRatioCheck, h1]
      split_ifs with hc <;> simp [hc]
  case roe =>
    refine ⟨roeCheck noParams fetch ctx, rfl, ?_⟩
    rcases h1 : ctx.snapshot "roe" with _ | v
    · rcases h2 : fetch.roe with _ | v
      · simp [roeCheck, h1, h2]
        norm_num
      · simp only [roeCheck, h1, h2]
        split_ifs with hc <;> simp [hc]
    · simp only [roeCheck, h1]
      split_ifs with hc <;> simp [hc]

/-- C10: each of the seven built-in rules under its default parameters
returns (never raises) a result whose score lies in `[0, 1]` and is exactly
`0` whenever `passed` is false; consequently `total_score` never exceeds the
number of configured rules. -/
theorem default_rule_score_bounds :
    (∀ (k : RuleKind) (fetch : ExternalFetch) (ctx : StockContext),
      ∃ r, checkByKind k noParams fetch ctx = .ok r ∧
        0 ≤ r.score ∧ r.score ≤ 1 ∧ (r.passed = false → r.score = 0)) ∧
    (∀ (fetch : ExternalFetch) (stock : Pool1Row) (cfgs : List RuleConfig),
      (∀ c ∈ cfgs, c.ruleValue = noParams) →
      (applyRulesToStock fetch stock cfgs).totalScore ≤ (cfgs.length : ℚ)) := by
  refine ⟨checkByKind_noParams_bounds, ?_⟩
  intro fetch stock cfgs hdef
  have h := applyLoop_eq fetch (stockContextOf stock) cfgs
  simp only [applyRulesToStock, h]
  have hb : ∀ x ∈ cfgs.map (ruleScoreOf fetch (stockContextOf stock)), x ≤ 1 := by
    intro x hx
    obtain ⟨c, hc, rfl⟩ := List.mem_map.mp hx
    unfold ruleScoreOf evalRule
    cases hcl : ruleClassOf c.ruleKey with
    | none => norm_num
    | some k =>
      obtain ⟨r, hr, _, hb1, _⟩ :=
        checkByKind_noParams_bounds k fetch (stockContextOf stock)
      rw [hdef c hc]
      simp only [hr]
      exact hb1
  calc (cfgs.map (ruleScoreOf fetch (stockContextOf stock))).sum
      ≤ (cfgs.map (ruleScoreOf fetch (stockContextOf stock))).length • (1 : ℚ) :=
        List.sum_le_card_nsmul _ 1 hb
    _ = (cfgs.length : ℚ) := by simp [nsmul_eq_mul]

theorem default_rule_score_bounds_witness :
    (applyRulesToStock noFetch sampleStock [⟨"pe_ratio", noParams⟩]).totalScore ≤
      (([⟨"pe_ratio", noParams⟩] : List RuleConfig).length : ℚ) :=
  default_rule_score_bounds.2 noFetch sampleStock [⟨"pe_ratio", noParams⟩]
    (by intro c hc; rw [List.mem_singleton] at hc; subst hc; rfl)

/-- C2 counterexample: with default parameters and a snapshot lacking
`volume_ratio`, `VolumeRatioRule.check` returns `passed = false` with score
`0` — not the claimed `passed = true, score = 0.5`. -/
theorem missing_metric_claim_cex :
    (volumeRatioCheck noParams noDataCtx).toOption.map (fun r => (r.passed, r.score)) =
      some (false, 0) := by
  have hp : ¬((3 : ℚ)/2 ≤ (0 : ℚ)) := by norm_num
  simp [volumeRatioCheck, noParams, noDataCtx, hp]
  exact ⟨_, rfl, rfl, rfl⟩

/-- C2 amended: only the four fetch-style rules (`market_cap`, `pe_ratio`,
`pb_ratio`, `roe`) return `passed = true, score = 0.5` with an explanatory
reason when their metric is absent from the snapshot and the external fetch
also yields nothing; `volume_ratio`, `price_change` and `turnover_rate`
instead read the missing metric as `0` and apply their normal check. -/
theorem missing_metric_policy_amended (params : Params) (fetch : ExternalFetch)
    (ctx : StockContext) :
    (ctx.snapshot "market_cap" = none → fetch.marketCap = none →
      marketCapCheck params fetch ctx =
        ⟨true, 1/2, "无法获取市值数据", [("market_cap", none)]⟩) ∧
    (ctx.snapshot "pe_ratio" = none → fetch.peRatio = none →
      peRatioCheck params fetch ctx =
        ⟨true, 1/2, "无法获取市盈率数据", [("pe_ratio", none)]⟩) ∧
    (ctx.snapshot "pb_ratio" = none → fetch.pbRatio = none →
      pbRatioCheck params fetch ctx =
        ⟨true, 1/2, "无法获取市净率数据", [("pb_ratio", none)]⟩) ∧
    (ctx.snapshot "roe" = none → fetch.roe = none →
      roeCheck params fetch ctx =
        ⟨true, 1/2, "无法获取ROE数据", [("roe", none)]⟩) ∧
    (ctx.snapshot "volume_ratio" = none →
      volumeRatioCheck params ctx =
        volumeRatioCheck params (ctxWithMetric ctx "volume_ratio" 0)) ∧
    (ctx.snapshot "change_pct" = none →
      priceChangeCheck params ctx =
        priceChangeCheck params (ctxWithMetric ctx "change_pct" 0)) ∧
    (ctx.snapshot "turnover_rate" = none →
      turnoverRateCheck params ctx =
        turnoverRateCheck params (ctxWithMetric ctx "turnover_rate" 0)) := by
  refine ⟨?_, ?_, ?_, ?_, ?_, ?_, ?_⟩
  · intro h1 h2; simp [marketCapCheck, h1, h2]
  · intro h1 h2; simp [peRatioCheck, h1, h2]
  · intro h1 h2; simp [pbRatioCheck, h1, h2]
  · intro h1 h2; simp [roeCheck, h1, h2]
  · intro h1; simp [volumeRatioCheck, ctxWithMetric, h1]
  · intro h1; simp [priceChangeCheck, ctxWithMetric, h1]
  · intro h1; simp [turnoverRateCheck, ctxWithMetric, h1]

theorem missing_metric_policy_amended_witness :
    marketCapCheck noParams noFetch noDataCtx =
      ⟨true, 1/2, "无法获取市值数据", [("market_cap", none)]⟩ :=
  (missing_metric_policy_amended noParams noFetch noDataCtx).1 rfl rfl

/-! ## Matcher lemmas: insertion sort membership and head minimality -/

theorem insertLe_mem (le : String → String → Bool) (x : String) (l : List String)
    (a : String) : a ∈ insertLe le x l ↔ a = x ∨ a ∈ l := by
  induction l with
  | nil => simp [insertLe]
  | cons y ys ih =>
    by_cases hc : le x y
    · simp [insertLe, hc]
    · simp [insertLe, hc, ih]
      tauto

theorem sortLe_mem (le : String → String → Bool) (l : List String) (a : String) :
    a ∈ sortLe le l ↔ a ∈ l := by
  induction l with
  | nil => simp [sortLe]
  | cons x xs ih =>
    show a ∈ insertLe le x (sortLe le xs) ↔ _
    rw [insertLe_mem, ih]
    simp

theorem sortLe_length (le : String → String → Bool) (l : List String) :
    (sortLe le l).length = l.length := by
  have hins : ∀ (x : String) (m : List String),
      (insertLe le x m).length = m.length + 1 := by
    intro x m
    induction m with
    | nil => rfl
    | cons y ys ih =>
      by_cases hc : le x y <;> simp [insertLe, hc, ih]
  induction l with
  | nil => rfl
  | cons x xs ih =>
    show (insertLe le x (sortLe le xs)).length = xs.length + 1
    rw [hins, ih]

theorem sortLe_head_min (le : String → String → Bool)
    (htot : ∀ a b, (le a b || le b a) = true)
    (htrans : ∀ a b c, le a b = true → le b c = true → le a c = true) :
    ∀ (l : List String) (m : String) (rest : List String),
      sortLe le l = m :: rest → m ∈ l ∧ ∀ a ∈ l, le m a = true := by
  have hrefl : ∀ a, le a a = true := by
    intro a
    have := htot a a
    rwa [Bool.or_self] at this
  intro l
  induction l with
  | nil => intro m rest h; cases h
  | cons x xs ih =>
    intro m rest h
    have hx : sortLe le (x :: xs) = insertLe le x (sortLe le xs) := rfl
    rw [hx] at h
    cases hs : sortLe le xs with
    | nil =>
      have hxs : xs = [] := by
        have := sortLe_length le xs
        rw [hs] at this
        exact List.length_eq_zero.mp this.symm
      rw [hs] at h
      simp only [insertLe] at h
      injection h with h1 h2
      subst h1
      subst hxs
      refine ⟨List.mem_singleton.mpr rfl, ?_⟩
      intro a ha
      rw [List.mem_singleton] at ha
      subst ha
      exact hrefl a
    | cons m0 rest0 =>
      obtain ⟨hm0mem, hm0min⟩ := ih m0 rest0 hs
      rw [hs] at h
      by_cases hc : le x m0 = true
      · simp only [insertLe, hc, if_true] at h
        injection h with h1 h2
        subst h1
        refine ⟨List.mem_cons_self _ _, ?_⟩
        intro a ha
        rcases List.mem_cons.mp ha with h' | h'
        · subst h'; exact hrefl a
        · exact htrans _ m0 a hc (hm0min a h')
      · rw [Bool.not_eq_true] at hc
        simp only [insertLe, hc, Bool.false_eq_true, if_false] at h
        injection h with h1 h2
        subst h1
        refine ⟨List.mem_cons_of_mem _ hm0mem, ?_⟩
        intro a ha
        rcases List.mem_cons.mp ha with h' | h'
        · subst h'
          have hax := htot a m0
          rw [hc, Bool.false_or] at hax
          exact hax
        · exact hm0min a h'

theorem ascLeB_iff (a b : String) : ascLeB a b = true ↔ ascKeyLe a b := by
  simp [ascLeB, ascKeyLe]

theorem descLeB_iff (a b : String) : descLeB a b = true ↔ descKeyLe a b := by
  simp [descLeB, descKeyLe]

theorem ascLeB_total (a b : String) : (ascLeB a b || ascLeB b a) = true := by
  simp only [ascLeB, Bool.or_eq_true, decide_eq_true_eq]
  rcases lt_trichotomy a.length b.length with h | h | h
  · exact Or.inl (Or.inl h)
  · rcases le_total a b with hab | hba
    · exact Or.inl (Or.inr ⟨h, hab⟩)
    · exact Or.inr (Or.inr ⟨h.symm, hba⟩)
  · exact Or.inr (Or.inl h)

theorem ascLeB_trans (a b c : String) (h1 : ascLeB a b = true)
    (h2 : ascLeB b c = true) : ascLeB a c = true := by
  simp only [ascLeB, decide_eq_true_eq] at h1 h2 ⊢
  rcases h1 with h1 | ⟨h1, h1'⟩ <;> rcases h2 with h2 | ⟨h2, h2'⟩
  · exact Or.inl (lt_trans h1 h2)
  · exact Or.inl (h2 ▸ h1)
  · exact Or.inl (h1 ▸ h2)
  · exact Or.inr ⟨h1.trans h2, le_trans h1' h2'⟩

theorem descLeB_total (a b : String) : (descLeB a b || descLeB b a) = true := by
  simp only [descLeB, Bool.or_eq_true, decide_eq_true_eq]
  rcases lt_trichotomy a.length b.length with h | h | h
  · exact Or.inr (Or.inl h)
  · rcases le_total a b with hab | hba
    · exact Or.inl (Or.inr ⟨h, hab⟩)
    · exact Or.inr (Or.inr ⟨h.symm, hba⟩)
  · exact Or.inl (Or.inl h)

theorem descLeB_trans (a b c : String) (h1 : descLeB a b = true)
    (h2 : descLeB b c = true) : descLeB a c = true := by
  simp only [descLeB, decide_eq_true_eq] at h1 h2 ⊢
  rcases h1 with h1 | ⟨h1, h1'⟩ <;> rcases h2 with h2 | ⟨h2, h2'⟩
  · exact Or.inl (lt_trans h2 h1)
  · exact Or.inl (h2 ▸ h1)
  · exact Or.inl (h1 ▸ h2)
  · exact Or.inr ⟨h1.trans h2, le_trans h1' h2'⟩

theorem sortLe_head_of_ne_nil (le : String → String → Bool) (l : List String)
    (h : l ≠ []) : ∃ m rest, sortLe le l = m :: rest := by
  cases hs : sortLe le l with
  | nil =>
    exfalso
    have := sortLe_length le l
    rw [hs] at this
    exact h (List.length_eq_zero.mp this.symm)
  | cons m rest => exact ⟨m, rest, rfl⟩

theorem sortLe_head?_mem (le : String → String → Bool) (l : List String)
    (m : String) (h : (sortLe le l).head? = some m) : m ∈ l := by
  cases hs : sortLe le l with
  | nil => rw [hs] at h; cases h
  | cons a t =>
    rw [hs] at h
    have hmem : m ∈ sortLe le l := by
      rw [hs]
      rw [List.head?_cons, Option.some.injEq] at h
      rw [← h]
      exact List.mem_cons_self _ _
    exact (sortLe_mem le l m).mp hmem

theorem aliasContainsFirst_mem (cs : List String) (pref : List String)
    (m : String) : aliasContainsFirst cs pref = some m → m ∈ cs := by
  induction pref with
  | nil => intro h; cases h
  | cons name rest ih =>
    intro h
    simp only [aliasContainsFirst] at h
    by_cases he : (cs.filter (fun n => (!name.isEmpty) && strSubOf name n)).isEmpty = true
    · rw [if_pos he] at h
      exact ih h
    · rw [if_neg he] at h
      exact List.mem_of_mem_filter (sortLe_head?_mem _ _ _ h)

theorem aliasResolve_mem (s : String) (cs : List String) (m : String)
    (h : aliasResolve s cs = some m) : m ∈ cs := by
  unfold aliasResolve at h
  cases hl : COMMON_SECTOR_ALIASES.lookup s with
  | none => rw [hl] at h; cases h
  | some pref =>
    simp only [hl] at h
    cases hf : pref.find? (fun name => cs.contains name) with
    | none =>
      simp only [hf] at h
      exact aliasContainsFirst_mem cs pref m h
    | some name =>
      simp only [hf, Option.some.injEq] at h
      subst h
      have := List.find?_some hf
      simpa using this

theorem genericHeuristic_pos (s : String) (cs : List String)
    (hne : (cs.filter (fun n => strSubOf s n)).isEmpty = false) :
    genericHeuristic s cs =
      (sortLe ascLeB (cs.filter (fun n => strSubOf s n))).head? := by
  simp [genericHeuristic, hne]

theorem genericHeuristic_mid (s : String) (cs : List String)
    (h1 : (cs.filter (fun n => strSubOf s n)).isEmpty = true)
    (h2 : (cs.filter (fun n => strSubOf n s)).isEmpty = false) :
    genericHeuristic s cs =
      (sortLe descLeB (cs.filter (fun n => strSubOf n s))).head? := by
  simp [genericHeuristic, h1, h2]

theorem genericHeuristic_nix (s : String) (cs : List String)
    (h1 : (cs.filter (fun n => strSubOf s n)).isEmpty = true)
    (h2 : (cs.filter (fun n => strSubOf n s)).isEmpty = true) :
    genericHeuristic s cs = none := by
  simp [genericHeuristic, h1, h2]

theorem genericHeuristic_mem (s : String) (cs : List String) (m : String)
    (h : genericHeuristic s cs = some m) : m ∈ cs := by
  cases h1 : (cs.filter (fun n => strSubOf s n)).isEmpty with
  | false =>
    rw [genericHeuristic_pos s cs h1] at h
    exact List.mem_of_mem_filter (sortLe_head?_mem _ _ _ h)
  | true =>
    cases h2 : (cs.filter (fun n => strSubOf n s)).isEmpty with
    | false =>
      rw [genericHeuristic_mid s cs h1 h2] at h
      exact List.mem_of_mem_filter (sortLe_head?_mem _ _ _ h)
    | true =>
      rw [genericHeuristic_nix s cs h1 h2] at h
      cases h

/-- C9: `_match_concept_name` never fabricates a name outside the given
catalog — it returns `None` or an element of `concept_names` — and every
query that trims to the empty string returns `None`. -/
theorem matcher_returns_catalog_member (sector : String) (cs : List String) :
    (matchConceptName sector cs = none ∨
      ∃ m, matchConceptName sector cs = some m ∧ m ∈ cs) ∧
    ((pyStrip sector) = "" → matchConceptName sector cs = none) := by
  constructor
  · by_cases h0 : (pyStrip sector) = ""
    · refine Or.inl ?_
      simp only [matchConceptName]
      rw [if_pos h0]
    · by_cases h1 : cs.contains (pyStrip sector) = true
      · refine Or.inr ⟨(pyStrip sector), ?_, by simpa using h1⟩
        simp only [matchConceptName]
        rw [if_neg h0, if_pos h1]
      · have hbody : matchConceptName sector cs =
            (match aliasResolve (pyStrip sector) cs with
             | some name => some name
             | none => genericHeuristic (pyStrip sector) cs) := by
          simp only [matchConceptName]
          rw [if_neg h0, if_neg h1]
        rw [hbody]
        cases ha : aliasResolve (pyStrip sector) cs with
        | some name =>
          simp only [ha]
          exact Or.inr ⟨name, rfl, aliasResolve_mem _ _ _ ha⟩
        | none =>
          simp only [ha]
          cases hg : genericHeuristic (pyStrip sector) cs with
          | none => exact Or.inl rfl
          | some n => exact Or.inr ⟨n, rfl, genericHeuristic_mem _ _ _ hg⟩
  · intro h0
    simp only [matchConceptName]
    rw [if_pos h0]

theorem matcher_returns_catalog_member_witness :
    matchConceptName "  " ["AI"] = none :=
  (matcher_returns_catalog_member "  " ["AI"]).2 rfl

/-- C5: resolving "人工智能" against a catalog holding exactly "AI算力" and
"AI芯片" (in either order) returns "AI算力", the first alias-table candidate
present in the catalog, before any substring heuristic. -/
theorem board_alias_precedence :
    matchConceptName "人工智能" ["AI算力", "AI芯片"] = some "AI算力" ∧
    matchConceptName "人工智能" ["AI芯片", "AI算力"] = some "AI算力" := by
  constructor <;> rfl

/-- C6: for a non-empty trimmed query with no exact catalog match and no
alias-stage match, the resolver returns the shortest catalog name containing
the query (lexicographic tie-break); failing that, the longest catalog name
contained in the query (lexicographic tie-break); failing that, `None`. -/
theorem board_substring_heuristics (q : String) (cs : List String)
    (h1 : (pyStrip q) ≠ "")
    (h2 : cs.contains (pyStrip q) = false)
    (h3 : aliasResolve (pyStrip q) cs = none) :
    ((cs.filter (fun n => strSubOf (pyStrip q) n)) ≠ [] →
      ∃ m, matchConceptName q cs = some m ∧
        m ∈ cs.filter (fun n => strSubOf (pyStrip q) n) ∧
        ∀ n ∈ cs.filter (fun n => strSubOf (pyStrip q) n), ascKeyLe m n) ∧
    ((cs.filter (fun n => strSubOf (pyStrip q) n)) = [] →
      ((cs.filter (fun n => strSubOf n (pyStrip q))) ≠ [] →
        ∃ m, matchConceptName q cs = some m ∧
          m ∈ cs.filter (fun n => strSubOf n (pyStrip q)) ∧
          ∀ n ∈ cs.filter (fun n => strSubOf n (pyStrip q)), descKeyLe m n) ∧
      ((cs.filter (fun n => strSubOf n (pyStrip q))) = [] →
        matchConceptName q cs = none)) := by
  have h2' : ¬(cs.contains (pyStrip q) = true) := by
    rw [h2]
    exact Bool.false_ne_true
  have hm : matchConceptName q cs = genericHeuristic (pyStrip q) cs := by
    have hbody : matchConceptName q cs =
        (match aliasResolve (pyStrip q) cs with
         | some name => some name
         | none => genericHeuristic (pyStrip q) cs) := by
      simp only [matchConceptName]
      rw [if_neg h1, if_neg h2']
    rw [hbody]
    simp only [h3]
  constructor
  · intro hne
    have hne' : (cs.filter (fun n => strSubOf (pyStrip q) n)).isEmpty = false := by
      rw [Bool.eq_false_iff]
      intro habs
      exact hne (List.isEmpty_iff.mp habs)
    obtain ⟨m, rest, hsrt⟩ :=
      sortLe_head_of_ne_nil ascLeB (cs.filter (fun n => strSubOf (pyStrip q) n)) hne
    obtain ⟨hmem, hmin⟩ :=
      sortLe_head_min ascLeB ascLeB_total ascLeB_trans _ m rest hsrt
    refine ⟨m, ?_, hmem, ?_⟩
    · rw [hm, genericHeuristic_pos _ _ hne', hsrt]
      rfl
    · intro n hn
      exact (ascLeB_iff m n).mp (hmin n hn)
  · intro hempty
    have hempty' : (cs.filter (fun n => strSubOf (pyStrip q) n)).isEmpty = true := by
      rw [List.isEmpty_iff]
      exact hempty
    constructor
    · intro hne2
      have hne2' : (cs.filter (fun n => strSubOf n (pyStrip q))).isEmpty = false := by
        rw [Bool.eq_false_iff]
        intro habs
        exact hne2 (List.isEmpty_iff.mp habs)
      obtain ⟨m, rest, hsrt⟩ :=
        sortLe_head_of_ne_nil descLeB (cs.filter (fun n => strSubOf n (pyStrip q))) hne2
      obtain ⟨hmem, hmin⟩ :=
        sortLe_head_min descLeB descLeB_total descLeB_trans _ m rest hsrt
      refine ⟨m, ?_, hmem, ?_⟩
      · rw [hm, genericHeuristic_mid _ _ hempty' hne2', hsrt]
        rfl
      · intro n hn
        exact (descLeB_iff m n).mp (hmin n hn)
    · intro hempty2
      have hempty2' : (cs.filter (fun n => strSubOf n (pyStrip q))).isEmpty = true := by
        rw [List.isEmpty_iff]
        exact hempty2
      rw [hm, genericHeuristic_nix _ _ hempty' hempty2']

theorem board_substring_heuristics_witness :
    ∃ m, matchConceptName "半导体" ["半导体设备", "第三代半导体"] = some m ∧
      m ∈ (["半导体设备", "第三代半导体"] : List String).filter
            (fun n => strSubOf (pyStrip "半导体") n) ∧
      ∀ n ∈ (["半导体设备", "第三代半导体"] : List String).filter
            (fun n => strSubOf (pyStrip "半导体") n), ascKeyLe m n :=
  (board_substring_heuristics "半导体" ["半导体设备", "第三代半导体"]
    (by decide) (by decide) (by decide)).1 (by decide)

/-! ## Rerun / clear-step-data -/

/-- C3 (code-bug evidence): on a report with one row in every table, the
repository function `clear_step_data` at step 2 deletes exactly the pool-2,
pool-1 and topic rows — in that order, as its returned counts record — and
leaves `raw_articles` and `reports` untouched; but the rerun endpoint
resolves `clear_step_data` as an attribute of `services.pipeline_service`,
which does not define it, so a valid rerun request fails with
`AttributeError` (HTTP 500) before deleting anything. -/
theorem rerun_step_clear_wiring_bug :
    rerunStep populatedReportDb 1 2 =
      .error "AttributeError: module services.pipeline_service has no attribute clear_step_data" ∧
    (clearStepData populatedReportDb 1 2).2 =
      [("stock_pool_2", 1), ("stock_pool_1", 1), ("hot_topics", 1)] ∧
    (clearStepData populatedReportDb 1 2).1.stockPool2 = [] ∧
    (clearStepData populatedReportDb 1 2).1.stockPool1 = [] ∧
    (clearStepData populatedReportDb 1 2).1.hotTopics = [] ∧
    (clearStepData populatedReportDb 1 2).1.rawArticles = populatedReportDb.rawArticles ∧
    (clearStepData populatedReportDb 1 2).1.reports = populatedReportDb.reports :=
  ⟨rfl, rfl, rfl, rfl, rfl, rfl, rfl⟩

/-! ## Pipeline step effect lemmas -/

theorem foldl_insertArticleRow_frames (rid : Nat) (la : List ArticleData) :
    ∀ db : DB,
      (la.foldl (insertArticleRow rid) db).hotTopics = db.hotTopics ∧
      (la.foldl (insertArticleRow rid) db).stockPool1 = db.stockPool1 ∧
      (la.foldl (insertArticleRow rid) db).stockPool2 = db.stockPool2 ∧
      (la.foldl (insertArticleRow rid) db).reports = db.reports ∧
      (la.foldl (insertArticleRow rid) db).strategyConfig = db.strategyConfig := by
  induction la with
  | nil => intro db; exact ⟨rfl, rfl, rfl, rfl, rfl⟩
  | cons a rest ih => intro db; exact ih (insertArticleRow rid db a)

theorem step2ExtractTopics_noop (O : Oracles) (db : DB) (rid : Nat) :
    (step2ExtractTopics O db rid).1 = db ∧
    ∀ ts, (step2ExtractTopics O db rid).2 = .ok ts → ts = [] := by
  simp only [step2ExtractTopics]
  by_cases ha : (articlesOf db rid).isEmpty = true
  · rw [if_pos ha]
    refine ⟨rfl, ?_⟩
    intro ts hts
    rw [Except.ok.injEq] at hts
    exact hts.symm
  · rw [if_neg ha]
    cases hllm : O.llmTopics (articlesOf db rid) with
    | error e =>
      simp only [hllm]
      refine ⟨trivial, ?_⟩
      intro ts hts
      cases hts
    | ok ts0 =>
      cases ts0 with
      | nil =>
        simp only [hllm]
        refine ⟨trivial, ?_⟩
        intro ts hts
        rw [Except.ok.injEq] at hts
        exact hts.symm
      | cons t rest =>
        simp only [hllm]
        refine ⟨trivial, ?_⟩
        intro ts hts
        cases hts

theorem step3Stocks_noop (O : Oracles) (rid tid : Nat) (board : String)
    (l : List StockData) (db : DB) (cnt : Nat) :
    step3Stocks O rid tid board l db cnt = (db, cnt) := by
  cases l with
  | nil => rfl
  | cons st rest =>
    simp only [step3Stocks]
    cases hsnap : O.snap st.code with
    | error e => simp only [hsnap]
    | ok s => simp only [hsnap]

theorem step3Boards_noop (O : Oracles) (rid tid : Nat) (bs : List String) :
    ∀ (db : DB) (cnt : Nat), step3Boards O rid tid bs db cnt = (db, cnt) := by
  induction bs with
  | nil =>
    intro db cnt
    rfl
  | cons b rest ih =>
    intro db cnt
    simp only [step3Boards]
    cases hbs : O.boardStocks b with
    | error e =>
      simp only [hbs]
      exact ih db cnt
    | ok stocks =>
      simp only [hbs, step3Stocks_noop]
      exact ih db cnt

theorem step3Topics_noop (O : Oracles) (rid : Nat) (tl : List TopicRow) :
    ∀ (db : DB) (cnt : Nat), step3Topics O rid tl db cnt = (db, cnt) := by
  induction tl with
  | nil =>
    intro db cnt
    rfl
  | cons t rest ih =>
    intro db cnt
    simp only [step3Topics, step3Boards_noop]
    exact ih db cnt

theorem step3GetBoardStocks_noop (O : Oracles) (db : DB) (rid : Nat) :
    step3GetBoardStocks O db rid = (db, 0) :=
  step3Topics_noop O rid (topicsOf db rid) db 0

theorem find?_status_update (l : List ReportRow) (rid : Nat) (s : String)
    (h : l.any (fun r => r.id == rid) = true) :
    ((l.map (fun r => if r.id == rid then { r with status := s } else r)).find?
        (fun r => r.id == rid)).map (fun r => r.status) = some s := by
  induction l with
  | nil => cases h
  | cons r rest ih =>
    simp only [List.map_cons]
    by_cases hr : (r.id == rid) = true
    · rw [if_pos hr, List.find?_cons_of_pos]
      · rfl
      · exact hr
    · rw [if_neg hr, List.find?_cons_of_neg]
      · apply ih
        simp only [List.any_cons, hr] at h
        simpa using h
      · exact hr

theorem statusOf_updateStatus (db : DB) (rid : Nat) (s : String)
    (h : db.reports.any (fun r => r.id == rid) = true) :
    statusOf (updateStatus db rid s) rid = some s :=
  find?_status_update db.reports rid s h

theorem any_id_updateStatus (db : DB) (rid' : Nat) (s : String) (rid : Nat) :
    (updateStatus db rid' s).reports.any (fun r => r.id == rid) =
      db.reports.any (fun r => r.id == rid) := by
  show (db.reports.map _).any _ = _
  rw [List.any_map]
  congr 1
  funext r
  by_cases hr : (r.id == rid') = true <;> simp [Function.comp, hr]

theorem runStages_error (O : Oracles) (db2 : DB) (rid : Nat)
    (hany : db2.reports.any (fun r => r.id == rid) = true) :
    (runStages2to4 O db2 rid).2.status = "error" ∧
    statusOf (runStages2to4 O db2 rid).1 rid = some "error" ∧
    (runStages2to4 O db2 rid).1.hotTopics = db2.hotTopics ∧
    (runStages2to4 O db2 rid).1.stockPool1 = db2.stockPool1 ∧
    (runStages2to4 O db2 rid).1.stockPool2 = db2.stockPool2 := by
  have key : (runStages2to4 O db2 rid).1 = updateStatus db2 rid "error" ∧
      (runStages2to4 O db2 rid).2.status = "error" := by
    obtain ⟨h1, h2⟩ := step2ExtractTopics_noop O db2 rid
    by_cases hB : (articlesOf db2 rid).isEmpty = true
    · have hrun : runStages2to4 O db2 rid =
          (updateStatus db2 rid "error",
            ⟨rid, "error", some "No articles found", none⟩) := by
        simp only [runStages2to4]
        rw [if_pos hB]
      rw [hrun]
      exact ⟨rfl, rfl⟩
    · rcases hstep2 : step2ExtractTopics O db2 rid with ⟨db3, res⟩
      simp only [hstep2] at h1 h2
      rw [h1] at hstep2
      cases res with
      | error e =>
        have hrun : runStages2to4 O db2 rid =
            (updateStatus db2 rid "error",
              ⟨rid, "error", some "exception", none⟩) := by
          simp only [runStages2to4]
          rw [if_neg hB]
          simp only [hstep2]
        rw [hrun]
        exact ⟨rfl, rfl⟩
      | ok ts =>
        have hts : ts = [] := h2 ts rfl
        subst hts
        have hrun : runStages2to4 O db2 rid =
            (updateStatus db2 rid "error",
              ⟨rid, "error", some "No topics extracted", none⟩) := by
          simp only [runStages2to4]
          rw [if_neg hB]
          simp [hstep2]
        rw [hrun]
        exact ⟨rfl, rfl⟩
  obtain ⟨hdb, hst⟩ := key
  refine ⟨hst, ?_, ?_, ?_, ?_⟩
  · rw [hdb]
    exact statusOf_updateStatus db2 rid "error" hany
  · rw [hdb]
    rfl
  · rw [hdb]
    rfl
  · rw [hdb]
    rfl

theorem sourceArticles_spec (O : Oracles) (db0 : DB) (rid : Nat) (date : String) :
    (sourceArticles O db0 rid date).hotTopics = db0.hotTopics ∧
    (sourceArticles O db0 rid date).stockPool1 = db0.stockPool1 ∧
    (sourceArticles O db0 rid date).stockPool2 = db0.stockPool2 ∧
    (sourceArticles O db0 rid date).reports =
      (updateStatus db0 rid "processing").reports := by
  simp only [sourceArticles]
  split_ifs with h1 h2
  · exact ⟨rfl, rfl, rfl, rfl⟩
  · have h := foldl_insertArticleRow_frames rid (O.crawl date)
      (updateStatus db0 rid "processing")
    exact ⟨h.1, h.2.1, h.2.2.1, h.2.2.2.1⟩
  · exact ⟨rfl, rfl, rfl, rfl⟩

theorem runPipelineCore_error (O : Oracles) (db0 : DB) (rid : Nat) (date : String)
    (hany : db0.reports.any (fun r => r.id == rid) = true) :
    (runPipelineCore O db0 rid date).2.status = "error" ∧
    statusOf (runPipelineCore O db0 rid date).1 rid = some "error" ∧
    (runPipelineCore O db0 rid date).1.hotTopics = db0.hotTopics ∧
    (runPipelineCore O db0 rid date).1.stockPool1 = db0.stockPool1 ∧
    (runPipelineCore O db0 rid date).1.stockPool2 = db0.stockPool2 := by
  obtain ⟨ht, hp1, hp2, hrep⟩ := sourceArticles_spec O db0 rid date
  have hany2 : (sourceArticles O db0 rid date).reports.any
      (fun r => r.id == rid) = true := by
    rw [hrep, any_id_updateStatus]
    exact hany
  obtain ⟨g1, g2, g3, g4, g5⟩ :=
    runStages_error O (sourceArticles O db0 rid date) rid hany2
  simp only [runPipelineCore]
  exact ⟨g1, g2, g3.trans ht, g4.trans hp1, g5.trans hp2⟩

/-- C4: contrary to the claim, the all-gates-pass `completed` outcome is
unreachable — every `run_full_pipeline` run stores status `error` and writes
no topic, pool-1 or pool-2 row, whatever the oracles, database and date. The
claim's zero-output gates do store `error` and leave the later-stage tables
untouched, but a nonempty extraction errors too: the stage-2 `hot_topics`
INSERT (pipeline_service.py:276) passes the raw article-dict list as its
`source_article_ids` parameter, which the driver's parameter escaping rejects
with `TypeError`, so the per-run handler stores `error`; likewise every
stage-3 pool-1 INSERT passes the raw snapshot dict
(pipeline_service.py:311-323), so stage 3 always counts zero candidates.
Concretely, the benign one-topic world the claim would grade `completed` ends
as `error`/`exception`. -/
theorem run_full_pipeline_always_error (O : Oracles) (db : DB) (date : String) :
    (runFullPipeline O db date).2.status = "error" ∧
    statusOf (runFullPipeline O db date).1 (resolveReportId db date) =
      some "error" ∧
    (runFullPipeline O db date).1.hotTopics = db.hotTopics ∧
    (runFullPipeline O db date).1.stockPool1 = db.stockPool1 ∧
    (runFullPipeline O db date).1.stockPool2 = db.stockPool2 ∧
    (∀ (db' : DB) (rid : Nat), step3GetBoardStocks O db' rid = (db', 0)) ∧
    (runFullPipeline oneTopicWorld articleReportDb "2024-01-01").2 =
      ⟨1, "error", some "exception", none⟩ := by
  have hconc : (runFullPipeline oneTopicWorld articleReportDb "2024-01-01").2 =
      ⟨1, "error", some "exception", none⟩ := rfl
  cases hfind : db.reports.find? (fun r => r.date == date) with
  | some r =>
    have hridval : resolveReportId db date = r.id := by
      unfold resolveReportId
      rw [hfind]
    have hrun : runFullPipeline O db date = runPipelineCore O db r.id date := by
      unfold runFullPipeline
      rw [hfind]
    have hany : db.reports.any (fun rr => rr.id == r.id) = true := by
      rw [List.any_eq_true]
      exact ⟨r, List.mem_of_find?_eq_some hfind, by simp⟩
    obtain ⟨g1, g2, g3, g4, g5⟩ := runPipelineCore_error O db r.id date hany
    rw [hridval, hrun]
    exact ⟨g1, g2, g3, g4, g5,
      fun db' rid => step3GetBoardStocks_noop O db' rid, hconc⟩
  | none =>
    have hridval : resolveReportId db date = db.nextId := by
      unfold resolveReportId
      rw [hfind]
    have hrun : runFullPipeline O db date =
        runPipelineCore O (createReport db date).1 db.nextId date := by
      simp only [runFullPipeline, hfind]
      rfl
    have hany : (createReport db date).1.reports.any
        (fun rr => rr.id == db.nextId) = true := by
      simp [createReport]
    obtain ⟨g1, g2, g3, g4, g5⟩ :=
      runPipelineCore_error O (createReport db date).1 db.nextId date hany
    rw [hridval, hrun]
    exact ⟨g1, g2, g3, g4, g5,
      fun db' rid => step3GetBoardStocks_noop O db' rid, hconc⟩

end StockPB
